import Mathlib

/-!
Verification of the SWIFT line-of-sight extraction and serial I/O subsystem.

The definitions below are a shallow embedding of the C sources
(src/line_of_sight.c, src/serial_io.c, src/parser.h,
src/stars/EAGLE/stars.h).  Machine floating-point values are modelled as
rationals; fallible code returns Option/Except.
-/

namespace SwiftLos

/-- Modelled from the spec: the distinguished time-bin marker for inhibited
(logically deleted) particles; its concrete value lives in timeline.h, outside
the excerpt.  Only equality against it matters. -/
def time_bin_inhibited : Int := 58

/-- Gas particle record: the fields of struct part that the line-of-sight
filter inspects (position, smoothing length, time bin). -/
structure part where
  x : Fin 3 → ℚ
  h : ℚ
  time_bin : Int

/-- Sightline record, reconstructed from its uses in line_of_sight.c:
planar position, the (primary, secondary, sweep) axis assignment, periodic
flag, domain extents and the two match counters. -/
structure line_of_sight where
  Xpos : ℚ
  Ypos : ℚ
  xaxis : Fin 3
  yaxis : Fin 3
  zaxis : Fin 3
  periodic : Bool
  dim : Fin 3 → ℚ
  particles_in_los_local : ℕ
  particles_in_los_total : ℕ

/-- Modelled from the spec: the periodic wrap of a coordinate difference into
the range implied by the domain size (the nearest() macro of periodic.h,
outside the excerpt). -/
def nearest (dx box : ℚ) : ℚ :=
  if dx > box / 2 then dx - box
  else if dx < -(box / 2) then dx + box
  else dx

/-- The planar x-coordinate difference of a particle to a sightline, with the
optional periodic wrap, as computed in los_first_loop_mapper. -/
def los_dx (los : line_of_sight) (p : part) : ℚ :=
  let dx := p.x los.xaxis - los.Xpos
  if los.periodic then nearest dx (los.dim los.xaxis) else dx

/-- The planar y-coordinate difference of a particle to a sightline, with the
optional periodic wrap, as computed in los_first_loop_mapper. -/
def los_dy (los : line_of_sight) (p : part) : ℚ :=
  let dy := p.x los.yaxis - los.Ypos
  if los.periodic then nearest dy (los.dim los.yaxis) else dy

/-- The guarded acceptance test of the first (counting) pass,
los_first_loop_mapper: skip inhibited particles, then test dx <= hsml,
dy <= hsml and finally dx*dx + dy*dy <= hsml*hsml, where
hsml = h * kernel_gamma.  The kernel-support multiplier kernel_gamma is a
fixed constant of kernel_hydro.h, outside the excerpt; it is a parameter
here. -/
def los_accept (kernel_gamma : ℚ) (los : line_of_sight) (p : part) : Bool :=
  if p.time_bin = time_bin_inhibited then false
  else
    let dx := los_dx los p
    let hsml := p.h * kernel_gamma
    if dx ≤ hsml then
      let dy := los_dy los p
      if dy ≤ hsml then
        decide (dx * dx + dy * dy ≤ hsml * hsml)
      else false
    else false

/-- The first (counting) pass over the local particle array: accumulate the
number of accepted records, as in the loop of los_first_loop_mapper. -/
def los_first_loop_mapper (kernel_gamma : ℚ) (los : line_of_sight)
    (parts : List part) : ℕ :=
  parts.foldl (fun c p => if los_accept kernel_gamma los p then c + 1 else c) 0

/-- The acceptance test as re-spelt, textually duplicated, by the second
(compacting) pass inside do_line_of_sight (lines 346-383). -/
def los_second_accept (kernel_gamma : ℚ) (los : line_of_sight) (p : part) :
    Bool :=
  if p.time_bin = time_bin_inhibited then false
  else
    let dx := los_dx los p
    let hsml := p.h * kernel_gamma
    if dx ≤ hsml then
      let dy := los_dy los p
      if dy ≤ hsml then
        decide (dx * dx + dy * dy ≤ hsml * hsml)
      else false
    else false

/-- The second (compacting) pass of do_line_of_sight: copy each accepted
record, in array iteration order, into the freshly sized buffer. -/
def los_second_loop (kernel_gamma : ℚ) (los : line_of_sight) :
    List part → List part
  | [] => []
  | p :: rest =>
      if los_second_accept kernel_gamma los p then
        p :: los_second_loop kernel_gamma los rest
      else
        los_second_loop kernel_gamma los rest

/-- The reference membership predicate the spec describes: not inhibited, and
the squared wrapped planar distance is at most the squared smoothing
radius. -/
def los_match_spec (kernel_gamma : ℚ) (los : line_of_sight) (p : part) :
    Prop :=
  p.time_bin ≠ time_bin_inhibited ∧
    los_dx los p * los_dx los p + los_dy los p * los_dy los p ≤
      (p.h * kernel_gamma) * (p.h * kernel_gamma)

/-- The creation-time properties of an HDF5 dataset that the writers fix:
shape, chunk shape, and the three filter settings. -/
structure dataset_props where
  rank : ℕ
  shape0 : ℕ
  shape1 : ℕ
  chunk0 : ℕ
  chunk1 : ℕ
  fletcher32 : Bool
  shuffle : Bool
  deflate : Option ℕ
  deriving DecidableEq, Repr

/-- The dataset-creation decisions of write_los_hdf5_dataset (line_of_sight.c
lines 529-587): shape [N] or [N, d], leading chunk extent 2^20 clipped to N,
Fletcher-32 checksum unconditionally, shuffle and deflate at the configured
level only when snapshot_compression > 0. -/
def write_los_hdf5_dataset (N dimension snapshot_compression : ℕ) :
    dataset_props :=
  let rank := if dimension > 1 then 2 else 1
  let shape0 := N
  let shape1 := if dimension > 1 then dimension else 0
  let chunk0raw : ℕ := 2 ^ 20
  let chunk0 := if chunk0raw > N then N else chunk0raw
  let chunk1 := if dimension > 1 then dimension else 0
  { rank := rank, shape0 := shape0, shape1 := shape1,
    chunk0 := chunk0, chunk1 := chunk1,
    fletcher32 := true,
    shuffle := snapshot_compression > 0,
    deflate := if snapshot_compression > 0 then some snapshot_compression
               else none }

/-- The dataset-creation decisions of prepareArray (serial_io.c lines
184-235): same shape and chunk-clipping logic, but with leading chunk extent
2^16, no checksum filter, no shuffle, and an unconditional deflate at level
4. -/
def prepareArray (N_total dimension : ℕ) : dataset_props :=
  let rank := if dimension > 1 then 2 else 1
  let shape0 := N_total
  let shape1 := if dimension > 1 then dimension else 0
  let chunk0raw : ℕ := 2 ^ 16
  let chunk0 := if chunk0raw > N_total then N_total else chunk0raw
  let chunk1 := if dimension > 1 then dimension else 0
  { rank := rank, shape0 := shape0, shape1 := shape1,
    chunk0 := chunk0, chunk1 := chunk1,
    fletcher32 := false,
    shuffle := false,
    deflate := some 4 }

/-- Field importance, io_properties.h: COMPULSORY data must be present in the
IC file, OPTIONAL data is zeroed when absent. -/
inductive field_importance where
  | compulsory
  | optional
  deriving DecidableEq, Repr

/-- The slice of an io_props record that readArray consults: dataset name,
vector dimension and importance. -/
structure io_props_r where
  name : String
  dimension : ℕ
  importance : field_importance

/-- readArray (serial_io.c lines 72-173), at element granularity.  The file
is a map from dataset names to flat row-major element lists; the result is
the per-particle destination field contents (one row of `dimension` elements
per particle), or none when the read aborts.  An absent optional field
zero-fills the N destination rows and returns; an absent compulsory field is
fatal; a present field is read from the hyperslab rows
[offset, offset + N) and scaled by the unit-conversion factor when that
factor is not exactly 1. -/
def readArray (file : String → Option (List ℚ)) (props : io_props_r)
    (N offset : ℕ) (factor : ℚ) : Option (List (List ℚ)) :=
  match file props.name with
  | none =>
      if props.importance = field_importance.compulsory then none
      else some (List.replicate N (List.replicate props.dimension 0))
  | some data =>
      let raw := (List.range N).map
        (fun i => (data.drop ((offset + i) * props.dimension)).take
          props.dimension)
      if factor ≠ 1 then some (raw.map (fun row => row.map (fun v => v * factor)))
      else some raw

/-- The count-and-displacement loop of do_line_of_sight (lines 296-303):
starting from a running total and a running displacement, accumulate each
rank's count into the total, record the running displacement for that rank,
then advance the displacement by the count. -/
def los_gather_loop : List ℕ → ℕ → ℕ → ℕ × List ℕ
  | [], total, _ => (total, [])
  | c :: rest, total, disp =>
      let r := los_gather_loop rest (total + c) (disp + c)
      (r.1, disp :: r.2)

/-- Global total and per-rank Gatherv displacements for one sightline, from
the per-rank local counts (MPI_Allgather result). -/
def los_gather (counts : List ℕ) : ℕ × List ℕ :=
  los_gather_loop counts 0 0

/-- The action do_line_of_sight takes on one sightline once its global count
is known (lines 313-320): an empty sightline is warned about and skipped, a
non-empty one gets its group and datasets written. -/
inductive los_action where
  | warn_empty
  | write_group
  deriving DecidableEq, Repr

/-- The main per-sightline loop of do_line_of_sight, abstracted over the
per-sightline global counts: accumulate the header grand total (line 307)
and take the empty-check branch (lines 313-320) for each sightline in
turn. -/
def do_los_loop : List ℕ → ℕ → ℕ × List los_action
  | [], acc => (acc, [])
  | t :: rest, acc =>
      let a := if t = 0 then los_action.warn_empty else los_action.write_group
      let r := do_los_loop rest (acc + t)
      (r.1, a :: r.2)

/-- The line-of-sight configuration read by los_init (line_of_sight.c lines
53-84). -/
structure los_props where
  num_along_xy : Int
  num_along_yz : Int
  num_along_xz : Int
  xmin : ℚ
  xmax : ℚ
  ymin : ℚ
  ymax : ℚ
  zmin : ℚ
  zmax : ℚ
  num_tot : Int

/-- los_init: each parameter is optional (none models its absence from the
parameter file); counts default to 0, bounds default to the full domain
extent [0, dim]; num_tot is precomputed as the sum of the three per-plane
counts. -/
def los_init (dim : Fin 3 → ℚ) (pxy pyz pxz : Option Int)
    (pxmin pxmax pymin pymax pzmin pzmax : Option ℚ) : los_props :=
  let nxy := pxy.getD 0
  let nyz := pyz.getD 0
  let nxz := pxz.getD 0
  { num_along_xy := nxy, num_along_yz := nyz, num_along_xz := nxz,
    xmin := pxmin.getD 0, xmax := pxmax.getD (dim 0),
    ymin := pymin.getD 0, ymax := pymax.getD (dim 1),
    zmin := pzmin.getD 0, zmax := pzmax.getD (dim 2),
    num_tot := nxy + nyz + nxz }

/-- RAND_MAX of the C library random source. -/
def c_RAND_MAX : ℕ := 2147483647

/-- One draw of ((float)rand() / (float)RAND_MAX): the random source is a
stream of raw values indexed by draw order. -/
def rand_frac (rng : ℕ → ℕ) (i : ℕ) : ℚ :=
  (rng i : ℚ) / (c_RAND_MAX : ℚ)

/-- create_line_of_sight (lines 140-154). -/
def create_line_of_sight (Xpos Ypos : ℚ) (xaxis yaxis zaxis : Fin 3)
    (periodic : Bool) (dim : Fin 3 → ℚ) : line_of_sight :=
  { Xpos := Xpos, Ypos := Ypos, xaxis := xaxis, yaxis := yaxis,
    zaxis := zaxis, periodic := periodic, dim := dim,
    particles_in_los_local := 0, particles_in_los_total := 0 }

/-- One plane's generation loop: n sightlines, each consuming two consecutive
draws from the stream starting at index start, with the first coordinate
uniform in [amin, amax] and the second in [bmin, bmax]. -/
def gen_plane (rng : ℕ → ℕ) (start n : ℕ) (amin amax bmin bmax : ℚ)
    (xaxis yaxis zaxis : Fin 3) (periodic : Bool) (dim : Fin 3 → ℚ) :
    List line_of_sight :=
  (List.range n).map (fun i =>
    create_line_of_sight
      (rand_frac rng (start + 2 * i) * (amax - amin) + amin)
      (rand_frac rng (start + 2 * i + 1) * (bmax - bmin) + bmin)
      xaxis yaxis zaxis periodic dim)

/-- The full list built by the three loops of generate_line_of_sights (lines
104-134): XY plane (x in [xmin,xmax], y in [ymin,ymax], axes x,y,z), then YZ
plane (coordinates from the y and z ranges, axes y,z,x), then XZ plane
(coordinates from the x and z ranges, axes x,z,y). -/
def generate_los_list (rng : ℕ → ℕ) (params : los_props) (periodic : Bool)
    (dim : Fin 3 → ℚ) : List line_of_sight :=
  let nxy := params.num_along_xy.toNat
  let nyz := params.num_along_yz.toNat
  let nxz := params.num_along_xz.toNat
  gen_plane rng 0 nxy params.xmin params.xmax params.ymin params.ymax
      0 1 2 periodic dim ++
    gen_plane rng (2 * nxy) nyz params.ymin params.ymax params.zmin
      params.zmax 1 2 0 periodic dim ++
    gen_plane rng (2 * (nxy + nyz)) nxz params.xmin params.xmax params.zmin
      params.zmax 0 2 1 periodic dim

/-- generate_line_of_sights (lines 94-138): build the three planes' worth of
sightlines, then fail fatally when the produced count differs from the
precomputed num_tot. -/
def generate_line_of_sights (rng : ℕ → ℕ) (params : los_props)
    (periodic : Bool) (dim : Fin 3 → ℚ) : Except String (List line_of_sight) :=
  let los := generate_los_list rng params periodic dim
  if (los.length : Int) ≠ params.num_tot then
    Except.error "Could not make the right number of sightlines"
  else
    Except.ok los

/-- The per-plane [min, max] rectangle, keyed by axis: axis 0 uses
[xmin, xmax], axis 1 [ymin, ymax], axis 2 [zmin, zmax]. -/
def axis_min (params : los_props) (a : Fin 3) : ℚ :=
  if a.val = 0 then params.xmin
  else if a.val = 1 then params.ymin
  else params.zmin

/-- The per-axis upper bound of the configured rectangle. -/
def axis_max (params : los_props) (a : Fin 3) : ℚ :=
  if a.val = 0 then params.xmax
  else if a.val = 1 then params.ymax
  else params.zmax

/-- A sightline's two planar coordinates lie within the configured rectangle
of its plane: Xpos within the bounds of its primary axis, Ypos within the
bounds of its secondary axis. -/
def los_in_rect (params : los_props) (sl : line_of_sight) : Bool :=
  decide (axis_min params sl.xaxis ≤ sl.Xpos) &&
    decide (sl.Xpos ≤ axis_max params sl.xaxis) &&
    decide (axis_min params sl.yaxis ≤ sl.Ypos) &&
    decide (sl.Ypos ≤ axis_max params sl.yaxis)

/-- Rank r's element offset into the shared IC file, read_ic_serial
(serial_io.c line 524): offset = mpi_rank * N_total / mpi_size with integer
division. -/
def read_ic_offset (T P r : ℕ) : ℕ := r * T / P

/-- Rank r's element count, read_ic_serial (line 525):
N = (mpi_rank + 1) * N_total / mpi_size - offset. -/
def read_ic_count (T P r : ℕ) : ℕ := (r + 1) * T / P - r * T / P

/-- One name/value entry of the parameter store (parser.h struct
parameter). -/
structure parameter where
  name : String
  value : String

/-- getParam (parser.h lines 83-93): scan the stored parameters in index
order; the C test is if(strcmp(name, data[i].name)), which is TRUE exactly
when the two names DIFFER, so the first differing entry has its value
converted with atoi and assigned to *retParam; when every stored name equals
the query, the loop falls through and *retParam is left unchanged.  The
libc atoi is outside the excerpt and is a parameter. -/
def getParam (atoi : String → Int) : List parameter → String → Int → Int
  | [], _, ret => ret
  | p :: rest, name, ret =>
      if name ≠ p.name then atoi p.value
      else getParam atoi rest name ret

/-- EAGLE chemistry tracks 9 elements (chemistry_element_count). -/
def chemistry_element_count : ℕ := 9

/-- The to_distribute block of an EAGLE star particle: the quantities zeroed
by stars_evolve_spart and accumulated by the evolution routines. -/
structure to_distribute_t where
  num_SNIa : ℚ
  num_SNII : ℚ
  num_SNe : ℚ
  mass : ℚ
  metal_mass : ℕ → ℚ
  total_metal_mass : ℚ
  mass_from_AGB : ℚ
  metal_mass_from_AGB : ℚ
  mass_from_SNII : ℚ
  metal_mass_from_SNII : ℚ
  mass_from_SNIa : ℚ
  metal_mass_from_SNIa : ℚ
  Fe_mass_from_SNIa : ℚ

/-- The star-particle fields that the evolution driver touches. -/
structure spart where
  birth_time : ℚ
  mass_init : ℚ
  metal_mass_fraction_total : ℚ
  to_distribute : to_distribute_t

/-- compute_stellar_evolution (stars/EAGLE/stars.h lines 612-655).  The
dying-mass machinery (dying_mass_msun, the unit conversion to Gyr and the
log10) lives in imf.h/yield_tables.h outside the excerpt, so the composite
map from a stellar age to the log10 dying mass is the abstract parameter
log10_dying.  The three evolution routines evolve_SNIa, evolve_SNII and
evolve_AGB are abstract state transformers (none = the error() abort on a
bad yield normalisation); the theorems quantify over them, covering every
behaviour the routines may have.  Control flow of the driver itself follows
the source: abort when the min dying mass exceeds the max, return the
particle untouched when the integration interval is empty, otherwise run the
three routines in order and finally overwrite to_distribute.mass with
total_metal_mass + metal_mass[0] + metal_mass[1] (line 652). -/
def compute_stellar_evolution (log10_dying : ℚ → ℚ)
    (evolve_SNIa : spart → spart) (evolve_SNII evolve_AGB : spart → Option spart)
    (sp : spart) (age dt : ℚ) : Option spart :=
  if log10_dying age < log10_dying (age + dt) then none
  else if log10_dying (age + dt) = log10_dying age then some sp
  else
    match evolve_SNII (evolve_SNIa sp) with
    | none => none
    | some sp2 =>
        match evolve_AGB sp2 with
        | none => none
        | some sp3 =>
            some { sp3 with to_distribute :=
              { sp3.to_distribute with mass :=
                  sp3.to_distribute.total_metal_mass +
                    sp3.to_distribute.metal_mass 0 +
                    sp3.to_distribute.metal_mass 1 } }

/-- compute_SNe (lines 665-677): both branches of the wind-delay test return
0 in this source. -/
def compute_SNe (SNII_wind_delay age dt : ℚ) : ℚ :=
  if age ≤ SNII_wind_delay ∧ SNII_wind_delay < age + dt then 0 else 0

/-- The zeroing block of stars_evolve_spart (lines 697-711): number of SN,
distributed mass, the first chemistry_element_count metal masses and all the
per-channel tallies are reset; num_SNe is not among them. -/
def stars_zero_to_distribute (d : to_distribute_t) : to_distribute_t :=
  { d with
    num_SNIa := 0, num_SNII := 0, mass := 0,
    metal_mass := fun i => if i < chemistry_element_count then 0
                           else d.metal_mass i,
    total_metal_mass := 0,
    mass_from_AGB := 0, metal_mass_from_AGB := 0,
    mass_from_SNII := 0, metal_mass_from_SNII := 0,
    mass_from_SNIa := 0, metal_mass_from_SNIa := 0,
    Fe_mass_from_SNIa := 0 }

/-- stars_evolve_spart (lines 689-718): compute the star age, zero the
to_distribute block, run compute_stellar_evolution, then store the number of
type II SNe. -/
def stars_evolve_spart (log10_dying : ℚ → ℚ) (evolve_SNIa : spart → spart)
    (evolve_SNII evolve_AGB : spart → Option spart) (SNII_wind_delay : ℚ)
    (sp : spart) (current_time : ℚ) (dt : ℚ) : Option spart :=
  let star_age := current_time - sp.birth_time
  let sp0 : spart :=
    { sp with to_distribute := stars_zero_to_distribute sp.to_distribute }
  match compute_stellar_evolution log10_dying evolve_SNIa evolve_SNII
      evolve_AGB sp0 star_age dt with
  | none => none
  | some sp1 =>
      some { sp1 with to_distribute :=
        { sp1.to_distribute with
          num_SNe := compute_SNe SNII_wind_delay star_age dt } }

/-! ## Theorems -/

/-- The two C passes spell the acceptance test with identical code, so the
two embedded predicates coincide. -/
theorem los_second_accept_eq : @los_second_accept = @los_accept := rfl

/-- From the pure squared-distance bound and a nonnegative smoothing radius,
each planar difference is at most the radius, so the C guards accept. -/
theorem los_guard_of_sq (d e hsml : ℚ) (hh : 0 ≤ hsml)
    (hr : d * d + e * e ≤ hsml * hsml) : d ≤ hsml := by
  nlinarith [mul_self_nonneg e, mul_self_nonneg (d - hsml),
    mul_self_nonneg (d + hsml)]

/-- C1: a particle is counted by the first filtering pass iff it is not
inhibited and its wrapped squared planar distance to the sightline is at most
(h * kernel_gamma)^2; given a nonnegative smoothing radius, the intermediate
guards dx <= hsml and dy <= hsml do not change the accepted set. -/
theorem los_first_pass_predicate (kernel_gamma : ℚ) (los : line_of_sight)
    (p : part) (hk : 0 ≤ p.h * kernel_gamma) :
    los_accept kernel_gamma los p = true ↔
      los_match_spec kernel_gamma los p := by
  unfold los_accept los_match_spec
  by_cases hinh : p.time_bin = time_bin_inhibited
  · simp [hinh]
  · simp only [hinh, if_false, ne_eq, not_false_iff, true_and]
    constructor
    · intro h
      by_cases h1 : los_dx los p ≤ p.h * kernel_gamma
      · by_cases h2 : los_dy los p ≤ p.h * kernel_gamma
        · simp only [h1, if_true, h2] at h
          exact of_decide_eq_true h
        · simp [h1, h2] at h
      · simp [h1] at h
    · intro h
      have h1 : los_dx los p ≤ p.h * kernel_gamma :=
        los_guard_of_sq _ _ _ hk h
      have h2 : los_dy los p ≤ p.h * kernel_gamma := by
        refine los_guard_of_sq _ (los_dx los p) _ hk ?_
        linarith [h]
      simp [h1, h2, h]

/-- A fixed sightline used to instantiate the filter theorems. -/
def los_w : line_of_sight :=
  { Xpos := 1, Ypos := 2, xaxis := 0, yaxis := 1, zaxis := 2,
    periodic := true, dim := fun _ => 10,
    particles_in_los_local := 0, particles_in_los_total := 0 }

/-- A fixed particle used to instantiate the filter theorems. -/
def part_w : part :=
  { x := fun _ => 2, h := 1, time_bin := 0 }

/-- C1 witness: the predicate equivalence instantiated at a concrete
sightline and particle with kernel_gamma = 2. -/
theorem los_first_pass_predicate_witness :
    (0 : ℚ) ≤ part_w.h * 2 ∧
      (los_accept 2 los_w part_w = true ↔ los_match_spec 2 los_w part_w) :=
  ⟨by norm_num [part_w],
    los_first_pass_predicate 2 los_w part_w (by norm_num [part_w])⟩

/-- The counting fold of the first pass, generalized over its
accumulator. -/
theorem los_first_loop_go (kernel_gamma : ℚ) (los : line_of_sight)
    (parts : List part) (n : ℕ) :
    parts.foldl (fun c p => if los_accept kernel_gamma los p then c + 1 else c)
        n =
      n + (parts.filter (los_accept kernel_gamma los)).length := by
  induction parts generalizing n with
  | nil => simp
  | cons p rest ih =>
      by_cases hp : los_accept kernel_gamma los p = true
      · simp [List.foldl_cons, List.filter_cons, hp, ih]
        omega
      · simp [List.foldl_cons, List.filter_cons, hp, ih]

/-- C2: holding the data fixed, the second (compacting) pass produces exactly
the records accepted by the first pass's predicate, in original iteration
order as a duplicate-free sublist, and its length equals the first pass's
count. -/
theorem los_two_pass_agree (kernel_gamma : ℚ) (los : line_of_sight)
    (parts : List part) :
    los_second_loop kernel_gamma los parts =
        parts.filter (los_accept kernel_gamma los) ∧
      (los_second_loop kernel_gamma los parts).length =
        los_first_loop_mapper kernel_gamma los parts ∧
      (los_second_loop kernel_gamma los parts).Sublist parts := by
  have hfil : los_second_loop kernel_gamma los parts =
      parts.filter (los_accept kernel_gamma los) := by
    induction parts with
    | nil => rfl
    | cons p rest ih =>
        by_cases hp : los_accept kernel_gamma los p = true
        · simp [los_second_loop, los_second_accept_eq, hp, ih,
            List.filter_cons]
        · simp [los_second_loop, los_second_accept_eq, hp, ih,
            List.filter_cons]
  refine ⟨hfil, ?_, ?_⟩
  · rw [hfil, los_first_loop_mapper, los_first_loop_go]
    omega
  · rw [hfil]
    exact List.filter_sublist parts

/-- C3 counterexample: at N = 10, d = 1, the serial snapshot dataset
preparation enables NO checksum filter — the negation of the claim's
unconditional-checksum part — and, with any configured compression level
(in particular 0), deflates unconditionally at the fixed level 4 with no
shuffle, the negation of the claim's compression-iff-positive part. -/
theorem prepareArray_refutes_uniform_filters :
    (prepareArray 10 1).fletcher32 = false ∧
      (prepareArray 10 1).shuffle = false ∧
      (prepareArray 10 1).deflate = some 4 := by
  decide

/-- C3 amended: the LOS dataset writer shapes datasets as [N] (d <= 1) or
[N, d] (d > 1), clips the fixed leading chunk extent 2^20 down to N, enables
the Fletcher-32 checksum unconditionally and shuffle+deflate at the
configured level exactly when that level is positive; prepareArray shares
the shape logic with fixed leading chunk extent 2^16 clipped to N, but
enables no checksum, never shuffles, and deflates unconditionally at the
fixed level 4 regardless of the configured level. -/
theorem dataset_creation_properties (N dimension level : ℕ) :
    (write_los_hdf5_dataset N dimension level).rank =
        (if 1 < dimension then 2 else 1) ∧
      (write_los_hdf5_dataset N dimension level).shape0 = N ∧
      (write_los_hdf5_dataset N dimension level).shape1 =
        (if 1 < dimension then dimension else 0) ∧
      (write_los_hdf5_dataset N dimension level).chunk0 = min (2 ^ 20) N ∧
      (write_los_hdf5_dataset N dimension level).fletcher32 = true ∧
      ((write_los_hdf5_dataset N dimension level).shuffle = true ↔
        0 < level) ∧
      (write_los_hdf5_dataset N dimension level).deflate =
        (if 0 < level then some level else none) ∧
      (prepareArray N dimension).rank = (if 1 < dimension then 2 else 1) ∧
      (prepareArray N dimension).shape0 = N ∧
      (prepareArray N dimension).shape1 =
        (if 1 < dimension then dimension else 0) ∧
      (prepareArray N dimension).chunk0 = min (2 ^ 16) N ∧
      (prepareArray N dimension).fletcher32 = false ∧
      (prepareArray N dimension).shuffle = false ∧
      (prepareArray N dimension).deflate = some 4 := by
  unfold write_los_hdf5_dataset prepareArray
  refine ⟨rfl, rfl, rfl, ?_, rfl, ?_, rfl, rfl, rfl, rfl, ?_, rfl, rfl, rfl⟩
  · simp only [min_def]
    split <;> split <;> omega
  · simp [Nat.pos_iff_ne_zero, decide_eq_true_iff]
  · simp only [min_def]
    split <;> split <;> omega

/-- C4: a read of a named field by readArray zero-fills the N destination
rows and succeeds when the field is absent but optional, fails when the
field is absent and compulsory, and when the field is present fills the
destination exactly from the hyperslab rows [offset, offset + N) scaled by
the unit-conversion factor, with no zero-fill. -/
theorem readArray_cases (file : String → Option (List ℚ)) (props : io_props_r)
    (N offset : ℕ) (factor : ℚ) :
    (file props.name = none →
        props.importance = field_importance.optional →
        readArray file props N offset factor =
          some (List.replicate N (List.replicate props.dimension 0))) ∧
      (file props.name = none →
        props.importance = field_importance.compulsory →
        readArray file props N offset factor = none) ∧
      (∀ data, file props.name = some data →
        readArray file props N offset factor =
          some ((List.range N).map (fun i =>
            ((data.drop ((offset + i) * props.dimension)).take
                props.dimension).map (fun v => v * factor)))) := by
  refine ⟨?_, ?_, ?_⟩
  · intro habs himp
    cases props.importance <;> simp_all [readArray]
  · intro habs himp
    simp [readArray, habs, himp]
  · intro data hpres
    by_cases hf : factor = 1
    · simp [readArray, hpres, hf]
    · simp [readArray, hpres, hf]

/-- C4 witness: the three branches instantiated at a concrete two-column
dataset of six elements, N = 2, offset = 1, factor = 2. -/
theorem readArray_cases_witness :
    ((fun n => if n = "Coordinates" then
        some ([1, 2, 3, 4, 5, 6] : List ℚ) else none) "Coordinates" = none →
      ({ name := "Coordinates", dimension := 2,
         importance := field_importance.compulsory } : io_props_r).importance =
        field_importance.optional →
      readArray (fun n => if n = "Coordinates" then
          some ([1, 2, 3, 4, 5, 6] : List ℚ) else none)
        { name := "Coordinates", dimension := 2,
          importance := field_importance.compulsory } 2 1 2 =
        some (List.replicate 2 (List.replicate 2 0))) ∧
    ((fun n => if n = "Coordinates" then
        some ([1, 2, 3, 4, 5, 6] : List ℚ) else none) "Coordinates" = none →
      ({ name := "Coordinates", dimension := 2,
         importance := field_importance.compulsory } : io_props_r).importance =
        field_importance.compulsory →
      readArray (fun n => if n = "Coordinates" then
          some ([1, 2, 3, 4, 5, 6] : List ℚ) else none)
        { name := "Coordinates", dimension := 2,
          importance := field_importance.compulsory } 2 1 2 = none) ∧
    (∀ data, (fun n => if n = "Coordinates" then
        some ([1, 2, 3, 4, 5, 6] : List ℚ) else none) "Coordinates" =
        some data →
      readArray (fun n => if n = "Coordinates" then
          some ([1, 2, 3, 4, 5, 6] : List ℚ) else none)
        { name := "Coordinates", dimension := 2,
          importance := field_importance.compulsory } 2 1 2 =
        some ((List.range 2).map (fun i =>
          ((data.drop ((1 + i) * 2)).take 2).map (fun v => v * 2)))) :=
  readArray_cases
    (fun n => if n = "Coordinates" then some [1, 2, 3, 4, 5, 6] else none)
    { name := "Coordinates", dimension := 2,
      importance := field_importance.compulsory } 2 1 2

/-- The accumulated total of the gather loop is the starting total plus the
sum of the remaining counts. -/
theorem los_gather_loop_total (counts : List ℕ) (total disp : ℕ) :
    (los_gather_loop counts total disp).1 = total + counts.sum := by
  induction counts generalizing total disp with
  | nil => simp [los_gather_loop]
  | cons c rest ih => simp [los_gather_loop, ih]; omega

/-- The displacement list of the gather loop: entry k is the starting
displacement plus the sum of the first k counts. -/
theorem los_gather_loop_disps (counts : List ℕ) (total disp : ℕ) :
    (los_gather_loop counts total disp).2 =
      (List.range counts.length).map
        (fun k => disp + (counts.take k).sum) := by
  induction counts generalizing total disp with
  | nil => simp [los_gather_loop]
  | cons c rest ih =>
      simp only [los_gather_loop, ih, List.length_cons,
        List.range_succ_eq_map, List.map_cons, List.map_map,
        List.cons.injEq]
      refine ⟨by simp, ?_⟩
      refine List.map_congr_left (fun k _ => ?_)
      simp [List.take_succ_cons]
      omega

/-- Prefix sums are monotone in the prefix length. -/
theorem take_sum_mono (counts : List ℕ) (j k : ℕ) (hjk : j ≤ k) :
    (counts.take j).sum ≤ (counts.take k).sum := by
  have h : counts.take k = counts.take j ++ (counts.drop j).take (k - j) := by
    rw [← List.take_add]
    congr 1
    omega
  rw [h, List.sum_append]
  omega

/-- The grand-total accumulation of the main sightline loop. -/
theorem do_los_loop_total (totals : List ℕ) (acc : ℕ) :
    (do_los_loop totals acc).1 = acc + totals.sum := by
  induction totals generalizing acc with
  | nil => simp [do_los_loop]
  | cons t rest ih => simp [do_los_loop, ih]; omega

/-- C5: the global total of a sightline is the sum of the per-rank local
counts; each rank's Gatherv displacement is the exclusive prefix sum of the
lower-ranked counts, the displacements are contiguous
(disp(k+1) = disp(k) + count(k)) and nondecreasing in rank; and the header
grand total is the sum over sightlines of the global counts. -/
theorem los_gather_offsets (counts totals : List ℕ) :
    (los_gather counts).1 = counts.sum ∧
      (los_gather counts).2.length = counts.length ∧
      (∀ k, k < counts.length →
        (los_gather counts).2.getD k 0 = (counts.take k).sum) ∧
      (∀ k, k + 1 < counts.length →
        (los_gather counts).2.getD (k + 1) 0 =
          (los_gather counts).2.getD k 0 + counts.getD k 0) ∧
      (∀ j k, j ≤ k → k < counts.length →
        (los_gather counts).2.getD j 0 ≤ (los_gather counts).2.getD k 0) ∧
      (do_los_loop totals 0).1 = totals.sum := by
  have hd : (los_gather counts).2 =
      (List.range counts.length).map (fun k => (counts.take k).sum) := by
    unfold los_gather
    rw [los_gather_loop_disps]
    simp
  have hget : ∀ k, k < counts.length →
      (los_gather counts).2.getD k 0 = (counts.take k).sum := by
    intro k hk
    rw [hd, List.getD_eq_getElem?_getD, List.getElem?_map,
      List.getElem?_range hk]
    rfl
  refine ⟨?_, ?_, hget, ?_, ?_, ?_⟩
  · unfold los_gather
    rw [los_gather_loop_total]
    omega
  · rw [hd]; simp
  · intro k hk
    rw [hget _ hk, hget _ (by omega)]
    have hlt : k < counts.length := by omega
    rw [List.take_succ]
    have : counts[k]?.toList = [counts.getD k 0] := by
      rw [List.getD_eq_getElem?_getD, List.getElem?_eq_getElem hlt]
      rfl
    rw [this]
    simp
  · intro j k hjk hk
    rw [hget _ (by omega), hget _ hk]
    exact take_sum_mono counts j k hjk
  · rw [do_los_loop_total]; omega

/-- C5 witness: totals and displacements for three ranks with counts
[3, 0, 5] and header accumulation over sightline totals [2, 0, 4]. -/
theorem los_gather_offsets_witness :
    (los_gather [3, 0, 5]).1 = [3, 0, 5].sum ∧
      (los_gather [3, 0, 5]).2.getD 2 0 = ([3, 0, 5].take 2).sum := by
  refine ⟨(los_gather_offsets [3, 0, 5] [2, 0, 4]).1, ?_⟩
  exact (los_gather_offsets [3, 0, 5] [2, 0, 4]).2.2.1 2 (by decide)

/-- The action list of the main sightline loop records the empty-check branch
taken for each sightline in order. -/
theorem do_los_loop_actions (totals : List ℕ) (acc : ℕ) :
    (do_los_loop totals acc).2 =
      totals.map (fun t => if t = 0 then los_action.warn_empty
                           else los_action.write_group) := by
  induction totals generalizing acc with
  | nil => simp [do_los_loop]
  | cons t rest ih => simp [do_los_loop, ih]

/-- C8: a sightline with zero global matches is only warned about — its
group/dataset creation is skipped — while the loop still processes every
sightline and the zero count still contributes (zero) to the header grand
total. -/
theorem empty_los_skipped (totals : List ℕ) (j : ℕ)
    (hj : j < totals.length) (hzero : totals.getD j 0 = 0) :
    (do_los_loop totals 0).2.length = totals.length ∧
      (do_los_loop totals 0).2.getD j los_action.write_group =
        los_action.warn_empty ∧
      (do_los_loop totals 0).1 = totals.sum := by
  refine ⟨?_, ?_, ?_⟩
  · rw [do_los_loop_actions]; simp
  · rw [do_los_loop_actions, List.getD_eq_getElem?_getD, List.getElem?_map,
      List.getElem?_eq_getElem hj]
    have : totals[j] = 0 := by
      rw [List.getD_eq_getElem?_getD, List.getElem?_eq_getElem hj] at hzero
      exact hzero
    simp [this]
  · rw [do_los_loop_total]; omega

/-- C8 witness: the loop over sightline totals [2, 0, 4], where sightline 1
is empty. -/
theorem empty_los_skipped_witness :
    (do_los_loop [2, 0, 4] 0).2.length = ([2, 0, 4] : List ℕ).length ∧
      (do_los_loop [2, 0, 4] 0).2.getD 1 los_action.write_group =
        los_action.warn_empty ∧
      (do_los_loop [2, 0, 4] 0).1 = ([2, 0, 4] : List ℕ).sum :=
  empty_los_skipped [2, 0, 4] 1 (by decide) (by decide)

/-- A random fraction is nonnegative. -/
theorem rand_frac_nonneg (rng : ℕ → ℕ) (i : ℕ) : 0 ≤ rand_frac rng i := by
  unfold rand_frac
  positivity

/-- A random fraction drawn from a value within [0, RAND_MAX] is at
most 1. -/
theorem rand_frac_le_one (rng : ℕ → ℕ) (i : ℕ) (h : rng i ≤ c_RAND_MAX) :
    rand_frac rng i ≤ 1 := by
  unfold rand_frac
  rw [div_le_one (by norm_num [c_RAND_MAX])]
  have : (rng i : ℚ) ≤ (c_RAND_MAX : ℚ) := by exact_mod_cast h
  simpa [c_RAND_MAX] using this

/-- frac * (max - min) + min lands inside [min, max] when 0 <= frac <= 1 and
min <= max. -/
theorem uniform_in_range (q amin amax : ℚ) (h0 : 0 ≤ q) (h1 : q ≤ 1)
    (hab : amin ≤ amax) :
    amin ≤ q * (amax - amin) + amin ∧ q * (amax - amin) + amin ≤ amax := by
  constructor <;> nlinarith

/-- Every sightline of one plane-generation loop lies inside the rectangle of
its plane. -/
theorem gen_plane_in_rect (params : los_props) (rng : ℕ → ℕ) (start n : ℕ)
    (amin amax bmin bmax : ℚ) (xaxis yaxis zaxis : Fin 3) (periodic : Bool)
    (dim : Fin 3 → ℚ) (hrng : ∀ i, rng i ≤ c_RAND_MAX)
    (hmina : axis_min params xaxis = amin)
    (hmaxa : axis_max params xaxis = amax)
    (hminb : axis_min params yaxis = bmin)
    (hmaxb : axis_max params yaxis = bmax)
    (ha : amin ≤ amax) (hb : bmin ≤ bmax) (sl : line_of_sight)
    (hsl : sl ∈ gen_plane rng start n amin amax bmin bmax xaxis yaxis zaxis
      periodic dim) :
    los_in_rect params sl = true := by
  simp only [gen_plane, List.mem_map, List.mem_range] at hsl
  obtain ⟨i, _, rfl⟩ := hsl
  have hx := uniform_in_range (rand_frac rng (start + 2 * i)) amin amax
    (rand_frac_nonneg _ _) (rand_frac_le_one _ _ (hrng _)) ha
  have hy := uniform_in_range (rand_frac rng (start + 2 * i + 1)) bmin bmax
    (rand_frac_nonneg _ _) (rand_frac_le_one _ _ (hrng _)) hb
  simp [los_in_rect, create_line_of_sight, hmina, hmaxa, hminb, hmaxb,
    hx.1, hx.2, hy.1, hy.2]

/-- C6: with nonnegative per-plane counts and valid rectangles, the generator
produces exactly num_along_xy + num_along_yz + num_along_xz sightlines — so
the precomputed num_tot matches and the fatal count-mismatch branch is not
taken — and every generated sightline's two planar coordinates lie within
the configured rectangle of its plane. -/
theorem generate_sightlines_count_and_range (rng : ℕ → ℕ)
    (params : los_props) (periodic : Bool) (dim : Fin 3 → ℚ)
    (hrng : ∀ i, rng i ≤ c_RAND_MAX)
    (hxy : 0 ≤ params.num_along_xy) (hyz : 0 ≤ params.num_along_yz)
    (hxz : 0 ≤ params.num_along_xz)
    (htot : params.num_tot =
      params.num_along_xy + params.num_along_yz + params.num_along_xz)
    (hx : params.xmin ≤ params.xmax) (hy : params.ymin ≤ params.ymax)
    (hz : params.zmin ≤ params.zmax) :
    generate_line_of_sights rng params periodic dim =
        Except.ok (generate_los_list rng params periodic dim) ∧
      ((generate_los_list rng params periodic dim).length : Int) =
        params.num_tot ∧
      (generate_los_list rng params periodic dim).all (los_in_rect params) =
        true := by
  have hlen : (generate_los_list rng params periodic dim).length =
      params.num_along_xy.toNat + params.num_along_yz.toNat +
        params.num_along_xz.toNat := by
    simp [generate_los_list, gen_plane]
    omega
  have hlenZ : ((generate_los_list rng params periodic dim).length : Int) =
      params.num_tot := by
    rw [hlen, htot]
    omega
  refine ⟨?_, hlenZ, ?_⟩
  · unfold generate_line_of_sights
    simp [hlenZ]
  · rw [List.all_eq_true]
    intro sl hsl
    simp only [generate_los_list, List.mem_append] at hsl
    rcases hsl with (h | h) | h
    · exact gen_plane_in_rect params rng _ _ _ _ _ _ 0 1 2 periodic dim
        hrng rfl rfl rfl rfl hx hy sl h
    · exact gen_plane_in_rect params rng _ _ _ _ _ _ 1 2 0 periodic dim
        hrng rfl rfl rfl rfl hy hz sl h
    · exact gen_plane_in_rect params rng _ _ _ _ _ _ 0 2 1 periodic dim
        hrng rfl rfl rfl rfl hx hz sl h

/-- The concrete configuration used to instantiate the generation theorem:
one sightline per plane in a periodic 10^3 domain, all rectangle bounds left
at their defaults. -/
def los_props_w : los_props :=
  los_init (fun _ => 10) (some 1) (some 1) (some 1)
    none none none none none none

/-- C6 witness: the generator instantiated with a constant-zero random
source and the concrete configuration. -/
theorem generate_sightlines_witness :
    generate_line_of_sights (fun _ => 0) los_props_w true (fun _ => 10) =
        Except.ok (generate_los_list (fun _ => 0) los_props_w true
          (fun _ => 10)) ∧
      ((generate_los_list (fun _ => 0) los_props_w true
          (fun _ => 10)).length : Int) = los_props_w.num_tot ∧
      (generate_los_list (fun _ => 0) los_props_w true (fun _ => 10)).all
        (los_in_rect los_props_w) = true :=
  generate_sightlines_count_and_range (fun _ => 0) los_props_w true
    (fun _ => 10) (fun _ => Nat.zero_le _)
    (by norm_num [los_props_w, los_init]) (by norm_num [los_props_w, los_init])
    (by norm_num [los_props_w, los_init]) (by norm_num [los_props_w, los_init])
    (by norm_num [los_props_w, los_init]) (by norm_num [los_props_w, los_init])
    (by norm_num [los_props_w, los_init])

/-- A natural number is below (its quotient by b, plus one) times b. -/
theorem nat_lt_div_succ_mul (a b : ℕ) (hb : 0 < b) : a < (a / b + 1) * b :=
  (Nat.div_lt_iff_lt_mul hb).mp (Nat.lt_succ_self _)

/-- Membership of element x in rank r's slice, rewritten without integer
division: r*T < (x+1)*P and (x+1)*P <= (r+1)*T. -/
theorem slice_mem_iff (T P r x : ℕ) (hP : 0 < P) :
    (read_ic_offset T P r ≤ x ∧ x < read_ic_offset T P (r + 1)) ↔
      (r * T < (x + 1) * P ∧ (x + 1) * P ≤ (r + 1) * T) := by
  unfold read_ic_offset
  constructor
  · rintro ⟨h1, h2⟩
    constructor
    · calc r * T < (r * T / P + 1) * P := nat_lt_div_succ_mul (r * T) P hP
        _ ≤ (x + 1) * P := Nat.mul_le_mul_right P (by omega)
    · exact (Nat.le_div_iff_mul_le hP).mp (by omega)
  · rintro ⟨h1, h2⟩
    constructor
    · have : r * T < (x + 1) * P := h1
      have h3 : r * T / P < x + 1 := by
        rw [Nat.div_lt_iff_lt_mul hP]
        omega
      omega
    · have h4 : x + 1 ≤ (r + 1) * T / P := by
        rw [Nat.le_div_iff_mul_le hP]
        omega
      omega

/-- C7: for T >= 0 elements over P >= 1 ranks, the per-rank slices
[r*T/P, (r+1)*T/P) of read_ic_serial start at 0, are contiguous
(offset(r+1) = offset(r) + length(r)), exhaust exactly [0, T)
(offset(P) = T), and every element below T belongs to exactly one rank's
slice. -/
theorem read_ic_slices_partition (T P : ℕ) (hP : 0 < P) :
    read_ic_offset T P 0 = 0 ∧
      (∀ r, read_ic_offset T P (r + 1) =
        read_ic_offset T P r + read_ic_count T P r) ∧
      read_ic_offset T P P = T ∧
      (∀ x, x < T → ∃! r, r < P ∧ read_ic_offset T P r ≤ x ∧
        x < read_ic_offset T P r + read_ic_count T P r) := by
  have hcontig : ∀ r, read_ic_offset T P (r + 1) =
      read_ic_offset T P r + read_ic_count T P r := by
    intro r
    unfold read_ic_offset read_ic_count
    have hmono : r * T / P ≤ (r + 1) * T / P :=
      Nat.div_le_div_right (Nat.mul_le_mul_right T (by omega))
    omega
  refine ⟨by simp [read_ic_offset], hcontig, ?_, ?_⟩
  · unfold read_ic_offset
    exact Nat.mul_div_cancel_left T hP
  · intro x hx
    have hT : 0 < T := by omega
    set y := (x + 1) * P with hy
    have hy1 : 1 ≤ y := by
      have := Nat.mul_le_mul (by omega : 1 ≤ x + 1) hP
      omega
    have hyTP : y ≤ T * P := by
      rw [hy]
      exact Nat.mul_le_mul_right P (by omega)
    refine ⟨(y - 1) / T, ⟨?_, ?_⟩, ?_⟩
    · have h1 : (y - 1) / T * T ≤ y - 1 := Nat.div_mul_le_self _ _
      have h2 : y - 1 ≤ T * P - 1 := by omega
      have h3 : (y - 1) / T * T < T * P := by omega
      have h4 : (y - 1) / T * T = T * ((y - 1) / T) := Nat.mul_comm _ _
      have h5 : T * ((y - 1) / T) < T * P := by omega
      exact Nat.lt_of_mul_lt_mul_left h5
    · rw [← hcontig]
      rw [slice_mem_iff T P _ x hP]
      refine ⟨?_, ?_⟩
      · have h1 : (y - 1) / T * T ≤ y - 1 := Nat.div_mul_le_self _ _
        omega
      · have h2 := nat_lt_div_succ_mul (y - 1) T hT
        omega
    · intro s hs
      obtain ⟨hsP, hmem⟩ := hs
      rw [← hcontig, slice_mem_iff T P _ x hP] at hmem
      obtain ⟨hm1, hm2⟩ := hmem
      have h1 : (y - 1) / T * T ≤ y - 1 := Nat.div_mul_le_self _ _
      have h2 := nat_lt_div_succ_mul (y - 1) T hT
      rcases Nat.lt_trichotomy s ((y - 1) / T) with hlt | heq | hgt
      · exfalso
        have : (s + 1) * T ≤ (y - 1) / T * T :=
          Nat.mul_le_mul_right T (by omega)
        omega
      · exact heq
      · exfalso
        have : ((y - 1) / T + 1) * T ≤ s * T :=
          Nat.mul_le_mul_right T (by omega)
        omega

/-- C7 witness: the partition instantiated at T = 10 elements over P = 3
ranks, locating element 4. -/
theorem read_ic_slices_partition_witness :
    read_ic_offset 10 3 3 = 10 ∧
      (∃! r, r < 3 ∧ read_ic_offset 10 3 r ≤ 4 ∧
        4 < read_ic_offset 10 3 r + read_ic_count 10 3 r) :=
  ⟨(read_ic_slices_partition 10 3 (by norm_num)).2.2.1,
    (read_ic_slices_partition 10 3 (by norm_num)).2.2.2 4 (by norm_num)⟩

/-- C9: getParam assigns the atoi of the value of the FIRST stored parameter
whose name DIFFERS from the query (the inverted strcmp test), and leaves the
result unchanged exactly when every stored name equals the query; it never
selects a parameter by name equality. -/
theorem getParam_selects_first_differing (atoi : String → Int)
    (data : List parameter) (name : String) (ret : Int) :
    getParam atoi data name ret =
      match data.find? (fun p => name != p.name) with
      | some p => atoi p.value
      | none => ret := by
  induction data with
  | nil => rfl
  | cons p rest ih =>
      by_cases h : name = p.name
      · subst h
        simp only [getParam, List.find?, bne_self_eq_false, ne_eq,
          not_true_eq_false, if_false]
        exact ih
      · have hb : (name != p.name) = true := by simp [bne_iff_ne, h]
        simp [getParam, List.find?, hb, h]

/-- to_distribute.mass is derived from the metal masses after
compute_stellar_evolution returns normally: the final overwrite establishes
it on the full path; the empty-interval early return preserves it from the
input particle. -/
theorem compute_stellar_evolution_mass (log10_dying : ℚ → ℚ)
    (evolve_SNIa : spart → spart) (evolve_SNII evolve_AGB : spart → Option spart)
    (sp : spart) (age dt : ℚ) (sp1 : spart)
    (hres : compute_stellar_evolution log10_dying evolve_SNIa evolve_SNII
      evolve_AGB sp age dt = some sp1)
    (hsp : sp.to_distribute.mass = sp.to_distribute.total_metal_mass +
      sp.to_distribute.metal_mass 0 + sp.to_distribute.metal_mass 1) :
    sp1.to_distribute.mass = sp1.to_distribute.total_metal_mass +
      sp1.to_distribute.metal_mass 0 + sp1.to_distribute.metal_mass 1 := by
  unfold compute_stellar_evolution at hres
  by_cases hlt : log10_dying age < log10_dying (age + dt)
  · rw [if_pos hlt] at hres
    cases hres
  · rw [if_neg hlt] at hres
    by_cases heq : log10_dying (age + dt) = log10_dying age
    · rw [if_pos heq] at hres
      obtain rfl : sp = sp1 := Option.some.inj hres
      exact hsp
    · rw [if_neg heq] at hres
      rcases h2 : evolve_SNII (evolve_SNIa sp) with _ | sp2 <;>
        simp only [h2] at hres
      · cases hres
      · rcases h3 : evolve_AGB sp2 with _ | sp3 <;> simp only [h3] at hres
        · cases hres
        · obtain rfl := Option.some.inj hres
          rfl

/-- stars_evolve_spart is the zeroing step, compute_stellar_evolution, and
the num_SNe store, composed through Option.map. -/
theorem stars_evolve_spart_unfold (log10_dying : ℚ → ℚ)
    (evolve_SNIa : spart → spart) (evolve_SNII evolve_AGB : spart → Option spart)
    (SNII_wind_delay : ℚ) (sp : spart) (current_time dt : ℚ) :
    stars_evolve_spart log10_dying evolve_SNIa evolve_SNII evolve_AGB
        SNII_wind_delay sp current_time dt =
      (compute_stellar_evolution log10_dying evolve_SNIa evolve_SNII
          evolve_AGB
          { sp with to_distribute := stars_zero_to_distribute sp.to_distribute }
          (current_time - sp.birth_time) dt).map
        (fun sp1 => { sp1 with to_distribute :=
          { sp1.to_distribute with
            num_SNe :=
              compute_SNe SNII_wind_delay (current_time - sp.birth_time)
                dt } }) := by
  rcases hc : compute_stellar_evolution log10_dying evolve_SNIa evolve_SNII
      evolve_AGB
      { sp with to_distribute := stars_zero_to_distribute sp.to_distribute }
      (current_time - sp.birth_time) dt with _ | sp1 <;>
    simp [stars_evolve_spart, hc]

/-- C10: after every normal (non-aborting) return of stars_evolve_spart —
for every behaviour of the dying-mass computation and of the SNIa/SNII/AGB
routines — the particle satisfies
to_distribute.mass = total_metal_mass + metal_mass[0] + metal_mass[1]:
the final overwrite of compute_stellar_evolution establishes it on the full
path, and the zero-interval early return preserves it because the block was
zeroed at entry. -/
theorem stars_evolve_spart_mass_invariant (log10_dying : ℚ → ℚ)
    (evolve_SNIa : spart → spart) (evolve_SNII evolve_AGB : spart → Option spart)
    (SNII_wind_delay : ℚ) (sp : spart) (current_time dt : ℚ)
    (h : (stars_evolve_spart log10_dying evolve_SNIa evolve_SNII evolve_AGB
      SNII_wind_delay sp current_time dt).isSome = true) :
    ((stars_evolve_spart log10_dying evolve_SNIa evolve_SNII evolve_AGB
        SNII_wind_delay sp current_time dt).get h).to_distribute.mass =
      ((stars_evolve_spart log10_dying evolve_SNIa evolve_SNII evolve_AGB
        SNII_wind_delay sp current_time dt).get h).to_distribute.total_metal_mass +
      ((stars_evolve_spart log10_dying evolve_SNIa evolve_SNII evolve_AGB
        SNII_wind_delay sp current_time dt).get h).to_distribute.metal_mass 0 +
      ((stars_evolve_spart log10_dying evolve_SNIa evolve_SNII evolve_AGB
        SNII_wind_delay sp current_time dt).get h).to_distribute.metal_mass 1 := by
  have hzero :
      ({ sp with to_distribute := stars_zero_to_distribute sp.to_distribute } :
          spart).to_distribute.mass =
        ({ sp with to_distribute :=
            stars_zero_to_distribute sp.to_distribute } :
          spart).to_distribute.total_metal_mass +
        ({ sp with to_distribute :=
            stars_zero_to_distribute sp.to_distribute } :
          spart).to_distribute.metal_mass 0 +
        ({ sp with to_distribute :=
            stars_zero_to_distribute sp.to_distribute } :
          spart).to_distribute.metal_mass 1 := by
    norm_num [stars_zero_to_distribute, chemistry_element_count]
  rcases hres : compute_stellar_evolution log10_dying evolve_SNIa evolve_SNII
      evolve_AGB
      { sp with to_distribute := stars_zero_to_distribute sp.to_distribute }
      (current_time - sp.birth_time) dt with _ | sp1
  · exfalso
    rw [stars_evolve_spart_unfold, hres] at h
    simp at h
  · have h1 := compute_stellar_evolution_mass log10_dying evolve_SNIa
      evolve_SNII evolve_AGB
      { sp with to_distribute := stars_zero_to_distribute sp.to_distribute }
      (current_time - sp.birth_time) dt sp1 hres hzero
    have hval : stars_evolve_spart log10_dying evolve_SNIa evolve_SNII
        evolve_AGB SNII_wind_delay sp current_time dt =
        some { sp1 with to_distribute :=
          { sp1.to_distribute with
            num_SNe :=
              compute_SNe SNII_wind_delay (current_time - sp.birth_time)
                dt } } := by
      rw [stars_evolve_spart_unfold, hres]
      rfl
    have hget := Option.get_of_mem h (Option.mem_def.mpr hval)
    rw [hget]
    exact h1

/-- The concrete star particle used to instantiate the invariant theorem. -/
def spart_w : spart :=
  { birth_time := 1, mass_init := 4, metal_mass_fraction_total := 1/100,
    to_distribute :=
      { num_SNIa := 1, num_SNII := 1, num_SNe := 1, mass := 7,
        metal_mass := fun _ => 3, total_metal_mass := 5,
        mass_from_AGB := 1, metal_mass_from_AGB := 1,
        mass_from_SNII := 1, metal_mass_from_SNII := 1,
        mass_from_SNIa := 1, metal_mass_from_SNIa := 1,
        Fe_mass_from_SNIa := 1 } }

/-- C10 witness: the invariant instantiated with a constant dying-mass map
(empty integration interval, so the early-return path is taken) and identity
evolution routines. -/
theorem stars_evolve_spart_mass_invariant_witness :
    ((stars_evolve_spart (fun _ => 0) id (fun s => some s) (fun s => some s)
        1 spart_w 5 1).get rfl).to_distribute.mass =
      ((stars_evolve_spart (fun _ => 0) id (fun s => some s) (fun s => some s)
        1 spart_w 5 1).get rfl).to_distribute.total_metal_mass +
      ((stars_evolve_spart (fun _ => 0) id (fun s => some s) (fun s => some s)
        1 spart_w 5 1).get rfl).to_distribute.metal_mass 0 +
      ((stars_evolve_spart (fun _ => 0) id (fun s => some s) (fun s => some s)
        1 spart_w 5 1).get rfl).to_distribute.metal_mass 1 :=
  stars_evolve_spart_mass_invariant (fun _ => 0) id (fun s => some s)
    (fun s => some s) 1 spart_w 5 1 rfl

end SwiftLos
